import Mathlib

/-!
Verification of the `ch` hex-dump engine (src/index.js).

The engine is embedded shallowly: the file is a pure byte function together
with its size, the JavaScript object state of `HexaFile` is an explicit
record, strings are `List Char`, and `fs` calls are modelled by explicit
state updates.  `fs.readSync(fd, buf, 0, len, off)` copies
`min(len, fileSize - off)` bytes into the front of the buffer and leaves the
tail untouched; `Buffer.alloc` zero-fills; `number.toString(16)` is
`Nat.toDigits 16`; `s.substr(-k)` is `takeRight k`.
-/

set_option linter.unusedVariables false

/-- `LINE_WIDTH = 192 / 8` (src/index.js line 5). -/
def LINE_WIDTH : Nat := 192 / 8

/-- `BUFFER_LENGTH = 512 * 1024` (src/index.js line 8). -/
def BUFFER_LENGTH : Nat := 512 * 1024

/-- `MAX_32BIT = 0xffffffff` (src/index.js line 9). -/
def MAX_32BIT : Nat := 0xffffffff

/-- Model of JavaScript `s.substr(-k)`: the last `k` characters of `s`
(all of `s` when `s` is shorter than `k`). -/
def takeRight (k : Nat) (l : List Char) : List Char :=
  l.drop (l.length - k)

/-- Operating-system view of the open file descriptors; `fs.closeSync` on a
descriptor that is not open raises `EBADF`. -/
structure Sys where
  openFds : List Nat
deriving DecidableEq

/-- Model of `fs.closeSync(fd)`: closes an open descriptor, raises `EBADF`
otherwise. -/
def closeSync (sys : Sys) (fd : Nat) : Except (List Char) Sys :=
  if fd ∈ sys.openFds then .ok { openFds := sys.openFds.erase fd }
  else .error "EBADF: bad file descriptor".data

/-- The mutable state of a `HexaFile` object plus the immutable content of
the file it reads (`fsize`/`fbyte` stand for the stat size and the byte at
each position; `buffer` is the 512 KiB `Buffer`, only indices below
`BUFFER_LENGTH` are ever used — see the C10 theorem). -/
structure HexaFile where
  fsize : Nat
  fbyte : Nat → Nat
  currentOffset : Nat
  bufferStart : Nat
  buffer : Nat → Nat
  blockSize : Nat
  showOffset : Bool
  showHexa : Bool
  currentLine : Nat
  maxLine : Nat
  fd : Option Nat

namespace HexaFile

/-- The constructor (src/index.js lines 13-22): `currentOffset` and
`bufferStart` both start at the requested start offset; no descriptor has
been acquired yet and the buffer is the zero-filled allocation performed by
`openFile`. -/
def mk' (fsize : Nat) (fbyte : Nat → Nat) (blockSize startOffset : Nat)
    (hexa offset : Bool) : HexaFile :=
  { fsize, fbyte, currentOffset := startOffset, bufferStart := startOffset,
    buffer := fun _ => 0, blockSize, showOffset := offset, showHexa := hexa,
    currentLine := 0, maxLine := 0, fd := none }

/-- `statFile` (lines 28-42): an empty file is a terminal error.  (The
not-found / is-directory failures concern the opaque path and are outside
the byte-level model.) -/
def statFile (s : HexaFile) : Except (List Char) Unit :=
  if s.fsize = 0 then .error "Empty file".data else .ok ()

/-- `checkStartOffset` (lines 62-68): a start offset at or past the file
size is reset to 0, together with the window start, emitting one warning.
The second component counts the warnings printed. -/
def checkStartOffset (s : HexaFile) : HexaFile × Nat :=
  if s.fsize ≤ s.currentOffset then
    ({ s with currentOffset := 0, bufferStart := 0 }, 1)
  else (s, 0)

/-- `readChunk` (lines 75-77): `fs.readSync(fd, buffer, 0, BUFFER_LENGTH,
offset)` overwrites the first `min(BUFFER_LENGTH, fsize - offset)` bytes of
the buffer with the file bytes starting at `offset` and leaves the rest of
the buffer unchanged. -/
def readChunk (s : HexaFile) (offset : Nat) : HexaFile :=
  { s with buffer := fun i =>
      if i < BUFFER_LENGTH ∧ offset + i < s.fsize then s.fbyte (offset + i)
      else s.buffer i }

/-- `openFile` (lines 50-56): stat, clamp the start offset, acquire a
descriptor, allocate the (zero-filled) buffer and read the first chunk at
`currentOffset`.  Returns the session state and the number of warnings
printed. -/
def openFile (s : HexaFile) (fd : Nat) : Except (List Char) (HexaFile × Nat) :=
  match statFile s with
  | .error e => .error e
  | .ok _ =>
    let p := checkStartOffset s
    .ok (readChunk { p.1 with fd := some fd } p.1.currentOffset, p.2)

/-- `cleanup` (lines 82-86): `if (this.fd) fs.closeSync(this.fd)`.  Note
that `this.fd` is *not* cleared, and a descriptor of `0` is falsy in
JavaScript. -/
def cleanup (s : HexaFile) (sys : Sys) : Except (List Char) Sys :=
  match s.fd with
  | none => .ok sys
  | some fd => if fd ≠ 0 then closeSync sys fd else .ok sys

/-- `checkBuffer` (lines 157-162): refill only when the offset is at or
past the end of the window; the window start becomes the offset. -/
def checkBuffer (s : HexaFile) (offset : Nat) : HexaFile :=
  if BUFFER_LENGTH + s.bufferStart ≤ offset then
    readChunk { s with bufferStart := offset } offset
  else s

/-- `readByteFromFile` (lines 172-180): `-1` is the end-of-file sentinel;
otherwise the byte is looked up at buffer index `offset - bufferStart`
after `checkBuffer`.  Returns the value and the updated state. -/
def readByteFromFile (s : HexaFile) (offset : Nat) : Int × HexaFile :=
  if offset < s.fsize then
    let s1 := checkBuffer s offset
    ((s1.buffer (offset - s1.bufferStart) : Int), s1)
  else (-1, s)

/-- `convertByteTotHexa` (lines 240-242): `("00" + n.toString(16)).substr(-2)`. -/
def convertByteTotHexa (number : Nat) : List Char :=
  takeRight 2 ('0' :: '0' :: Nat.toDigits 16 number)

/-- `convertOffsetTotHexa` (lines 226-232): pad to 8 hex digits up to
`MAX_32BIT`, else to 16. -/
def convertOffsetTotHexa (number : Nat) : List Char :=
  if number ≤ MAX_32BIT then
    takeRight 8 (List.replicate 8 '0' ++ Nat.toDigits 16 number)
  else
    takeRight 16 (List.replicate 16 '0' ++ Nat.toDigits 16 number)

/-- `getByteHexa` (lines 189-197): two hex digits, or `".."` past end of
file. -/
def getByteHexa (s : HexaFile) (offset : Nat) : List Char × HexaFile :=
  if -1 < (readByteFromFile s offset).1 then
    (convertByteTotHexa (readByteFromFile s offset).1.toNat,
     (readByteFromFile s offset).2)
  else (['.', '.'], (readByteFromFile s offset).2)

/-- `getAscii` (lines 207-218): the platform flag `w` is `isWindows`;
`((!isWindows && code > 160) || (code >= 32 && code < 127)) && code !== 0xAD`. -/
def getAscii (w : Bool) (s : HexaFile) (offset : Nat) : List Char × HexaFile :=
  if ((w = false ∧ 160 < (readByteFromFile s offset).1) ∨
      (32 ≤ (readByteFromFile s offset).1 ∧ (readByteFromFile s offset).1 < 127)) ∧
     (readByteFromFile s offset).1 ≠ 0xAD then
    ([Char.ofNat (readByteFromFile s offset).1.toNat], (readByteFromFile s offset).2)
  else
    (['.'], (readByteFromFile s offset).2)

/-- The `while (pos < LINE_WIDTH)` loop of `generateLine` (lines 137-145),
with `fuel = LINE_WIDTH - pos` remaining iterations: accumulates the hex
portion (with a two-space separator whenever the incremented `pos` is a
multiple of `spacing`) and the character gloss, threading the byte-source
state. -/
def genLoop (w : Bool) (spacing base : Nat) :
    Nat → Nat → HexaFile → List Char × List Char × HexaFile
  | _, 0, s => ([], [], s)
  | pos, fuel + 1, s =>
    let h := getByteHexa s (base + pos)
    let a := getAscii w h.2 (base + pos)
    let sep : List Char := if (pos + 1) % spacing = 0 then [' ', ' '] else []
    let rest := genLoop w spacing base (pos + 1) fuel a.2
    (h.1 ++ sep ++ rest.1, a.1 ++ rest.2.1, rest.2.2)

/-- `generateLine` (lines 131-148): `spacing = blockSize / 8`; returns
`hexa ++ ascii` when the hex column is shown, else just the gloss. -/
def generateLine (w : Bool) (s : HexaFile) : List Char × HexaFile :=
  let r := genLoop w (s.blockSize / 8) s.currentOffset 0 LINE_WIDTH s
  ((if s.showHexa then r.1 ++ r.2.1 else r.2.1), r.2.2)

/-- `getOffset` (lines 124-126). -/
def getOffset (s : HexaFile) : List Char :=
  convertOffsetTotHexa s.currentOffset

/-- One execution of `printLine` (lines 91-103) without the rescheduling:
builds the line (offset column plus three spaces when enabled, then the
line body), advances `currentOffset` by `LINE_WIDTH` and increments
`currentLine`. -/
def printLineStep (w : Bool) (s : HexaFile) : List Char × HexaFile :=
  let pre : List Char := if s.showOffset then s.getOffset ++ [' ', ' ', ' '] else []
  let body := generateLine w s
  (pre ++ body.1,
   { body.2 with currentOffset := body.2.currentOffset + LINE_WIDTH,
                 currentLine := body.2.currentLine + 1 })

/-- The `printLine` self-rescheduling loop (lines 91-110): print a line,
then continue while `currentLine < maxLine`.  `fuel` bounds the number of
reschedules; `print` passes enough fuel that it is never exhausted. -/
def printLineRec (w : Bool) : Nat → HexaFile → List (List Char) × HexaFile
  | 0, s =>
    let p := printLineStep w s
    ([p.1], p.2)
  | fuel + 1, s =>
    let p := printLineStep w s
    if p.2.currentLine < p.2.maxLine then
      let rest := printLineRec w fuel p.2
      (p.1 :: rest.1, rest.2)
    else ([p.1], p.2)

/-- `print` (lines 115-119): `maxLine = Math.ceil(fsize / LINE_WIDTH)`,
`currentLine = 0`, then the `printLine` chain.  Returns the emitted lines
and the final state. -/
def print (w : Bool) (s : HexaFile) : List (List Char) × HexaFile :=
  let s0 := { s with maxLine := (s.fsize + LINE_WIDTH - 1) / LINE_WIDTH,
                     currentLine := 0 }
  printLineRec w s0.maxLine s0

/-- A sequence of `readByteFromFile` calls (the access pattern the line
renderer produces), recording the buffer index used by each in-range
lookup together with the final state. -/
def readSeq (s : HexaFile) : List Nat → List Nat × HexaFile
  | [] => ([], s)
  | o :: os =>
    let s1 := (readByteFromFile s o).2
    let rest := readSeq s1 os
    (if o < s.fsize then (o - s1.bufferStart) :: rest.1 else rest.1, rest.2)

end HexaFile

/-- `pat` matches at the start of `l` (used to model an unanchored regex). -/
def startsWithChars : List Char → List Char → Bool
  | [], _ => true
  | _ :: _, [] => false
  | a :: as, b :: bs => a == b && startsWithChars as bs

/-- `l` contains `pat` as a contiguous substring: the semantics of an
unanchored JavaScript regex made of literal alternatives. -/
def hasSubstring (pat : List Char) : List Char → Bool
  | [] => pat.isEmpty
  | c :: rest => startsWithChars pat (c :: rest) || hasSubstring pat rest

/-- `validateParams` (lines 250-260).  `String(blockSize).match(/8|16|32|64/)`
succeeds iff the *string* contains `"8"`, `"16"`, `"32"` or `"64"` anywhere
(the regex is unanchored); `startOffset` is the result of
`parseInt(program.startOffset)`, `none` standing for `NaN`. -/
def validateParams (blockSize : List Char) (startOffset : Option Int) : Bool :=
  if !(hasSubstring ['8'] blockSize || hasSubstring ['1', '6'] blockSize ||
       hasSubstring ['3', '2'] blockSize || hasSubstring ['6', '4'] blockSize) then
    false
  else
    match startOffset with
    | none => false
    | some n => if n < 0 then false else true

namespace HexaFile

@[simp] lemma readChunk_fsize (s : HexaFile) (o : Nat) :
    (readChunk s o).fsize = s.fsize := rfl

@[simp] lemma readChunk_fbyte (s : HexaFile) (o : Nat) :
    (readChunk s o).fbyte = s.fbyte := rfl

@[simp] lemma readChunk_currentOffset (s : HexaFile) (o : Nat) :
    (readChunk s o).currentOffset = s.currentOffset := rfl

@[simp] lemma readChunk_bufferStart (s : HexaFile) (o : Nat) :
    (readChunk s o).bufferStart = s.bufferStart := rfl

@[simp] lemma readChunk_currentLine (s : HexaFile) (o : Nat) :
    (readChunk s o).currentLine = s.currentLine := rfl

@[simp] lemma readChunk_maxLine (s : HexaFile) (o : Nat) :
    (readChunk s o).maxLine = s.maxLine := rfl

@[simp] lemma readChunk_showOffset (s : HexaFile) (o : Nat) :
    (readChunk s o).showOffset = s.showOffset := rfl

@[simp] lemma readChunk_showHexa (s : HexaFile) (o : Nat) :
    (readChunk s o).showHexa = s.showHexa := rfl

@[simp] lemma readChunk_blockSize (s : HexaFile) (o : Nat) :
    (readChunk s o).blockSize = s.blockSize := rfl

@[simp] lemma checkBuffer_fsize (s : HexaFile) (o : Nat) :
    (checkBuffer s o).fsize = s.fsize := by
  unfold checkBuffer; split <;> rfl

@[simp] lemma checkBuffer_fbyte (s : HexaFile) (o : Nat) :
    (checkBuffer s o).fbyte = s.fbyte := by
  unfold checkBuffer; split <;> rfl

@[simp] lemma checkBuffer_currentOffset (s : HexaFile) (o : Nat) :
    (checkBuffer s o).currentOffset = s.currentOffset := by
  unfold checkBuffer; split <;> rfl

@[simp] lemma checkBuffer_currentLine (s : HexaFile) (o : Nat) :
    (checkBuffer s o).currentLine = s.currentLine := by
  unfold checkBuffer; split <;> rfl

@[simp] lemma checkBuffer_maxLine (s : HexaFile) (o : Nat) :
    (checkBuffer s o).maxLine = s.maxLine := by
  unfold checkBuffer; split <;> rfl

@[simp] lemma checkBuffer_showOffset (s : HexaFile) (o : Nat) :
    (checkBuffer s o).showOffset = s.showOffset := by
  unfold checkBuffer; split <;> rfl

@[simp] lemma checkBuffer_showHexa (s : HexaFile) (o : Nat) :
    (checkBuffer s o).showHexa = s.showHexa := by
  unfold checkBuffer; split <;> rfl

@[simp] lemma checkBuffer_blockSize (s : HexaFile) (o : Nat) :
    (checkBuffer s o).blockSize = s.blockSize := by
  unfold checkBuffer; split <;> rfl

lemma checkBuffer_bufferStart (s : HexaFile) (o : Nat) :
    (checkBuffer s o).bufferStart =
      if BUFFER_LENGTH + s.bufferStart ≤ o then o else s.bufferStart := by
  unfold checkBuffer; split <;> simp_all

lemma readByteFromFile_snd (s : HexaFile) (o : Nat) :
    (readByteFromFile s o).2 = if o < s.fsize then checkBuffer s o else s := by
  unfold readByteFromFile; split <;> simp_all

@[simp] lemma readByteFromFile_snd_fsize (s : HexaFile) (o : Nat) :
    ((readByteFromFile s o).2).fsize = s.fsize := by
  rw [readByteFromFile_snd]; split <;> simp

@[simp] lemma readByteFromFile_snd_fbyte (s : HexaFile) (o : Nat) :
    ((readByteFromFile s o).2).fbyte = s.fbyte := by
  rw [readByteFromFile_snd]; split <;> simp

@[simp] lemma readByteFromFile_snd_currentOffset (s : HexaFile) (o : Nat) :
    ((readByteFromFile s o).2).currentOffset = s.currentOffset := by
  rw [readByteFromFile_snd]; split <;> simp

@[simp] lemma readByteFromFile_snd_currentLine (s : HexaFile) (o : Nat) :
    ((readByteFromFile s o).2).currentLine = s.currentLine := by
  rw [readByteFromFile_snd]; split <;> simp

@[simp] lemma readByteFromFile_snd_maxLine (s : HexaFile) (o : Nat) :
    ((readByteFromFile s o).2).maxLine = s.maxLine := by
  rw [readByteFromFile_snd]; split <;> simp

@[simp] lemma readByteFromFile_snd_showOffset (s : HexaFile) (o : Nat) :
    ((readByteFromFile s o).2).showOffset = s.showOffset := by
  rw [readByteFromFile_snd]; split <;> simp

@[simp] lemma readByteFromFile_snd_showHexa (s : HexaFile) (o : Nat) :
    ((readByteFromFile s o).2).showHexa = s.showHexa := by
  rw [readByteFromFile_snd]; split <;> simp

@[simp] lemma readByteFromFile_snd_blockSize (s : HexaFile) (o : Nat) :
    ((readByteFromFile s o).2).blockSize = s.blockSize := by
  rw [readByteFromFile_snd]; split <;> simp

@[simp] lemma getByteHexa_snd (s : HexaFile) (o : Nat) :
    (getByteHexa s o).2 = (readByteFromFile s o).2 := by
  unfold getByteHexa; split <;> rfl

@[simp] lemma getAscii_snd (w : Bool) (s : HexaFile) (o : Nat) :
    (getAscii w s o).2 = (readByteFromFile s o).2 := by
  unfold getAscii; split <;> rfl

end HexaFile

namespace HexaFile

lemma genLoop_zero (w : Bool) (sp base pos : Nat) (s : HexaFile) :
    genLoop w sp base pos 0 s = ([], [], s) := rfl

lemma genLoop_succ (w : Bool) (sp base pos fuel : Nat) (s : HexaFile) :
    genLoop w sp base pos (fuel + 1) s =
      ((getByteHexa s (base + pos)).1 ++
        (if (pos + 1) % sp = 0 then [' ', ' '] else []) ++
        (genLoop w sp base (pos + 1) fuel
          ((getAscii w ((getByteHexa s (base + pos)).2) (base + pos)).2)).1,
       (getAscii w ((getByteHexa s (base + pos)).2) (base + pos)).1 ++
        (genLoop w sp base (pos + 1) fuel
          ((getAscii w ((getByteHexa s (base + pos)).2) (base + pos)).2)).2.1,
       (genLoop w sp base (pos + 1) fuel
         ((getAscii w ((getByteHexa s (base + pos)).2) (base + pos)).2)).2.2) := rfl

lemma genLoop_snd_currentOffset (w : Bool) (sp base : Nat) :
    ∀ (fuel pos : Nat) (s : HexaFile),
      ((genLoop w sp base pos fuel s).2.2).currentOffset = s.currentOffset := by
  intro fuel
  induction fuel with
  | zero => intro pos s; rfl
  | succ n ih => intro pos s; rw [genLoop_succ]; simp [ih]

lemma genLoop_snd_currentLine (w : Bool) (sp base : Nat) :
    ∀ (fuel pos : Nat) (s : HexaFile),
      ((genLoop w sp base pos fuel s).2.2).currentLine = s.currentLine := by
  intro fuel
  induction fuel with
  | zero => intro pos s; rfl
  | succ n ih => intro pos s; rw [genLoop_succ]; simp [ih]

lemma genLoop_snd_maxLine (w : Bool) (sp base : Nat) :
    ∀ (fuel pos : Nat) (s : HexaFile),
      ((genLoop w sp base pos fuel s).2.2).maxLine = s.maxLine := by
  intro fuel
  induction fuel with
  | zero => intro pos s; rfl
  | succ n ih => intro pos s; rw [genLoop_succ]; simp [ih]

lemma genLoop_snd_fsize (w : Bool) (sp base : Nat) :
    ∀ (fuel pos : Nat) (s : HexaFile),
      ((genLoop w sp base pos fuel s).2.2).fsize = s.fsize := by
  intro fuel
  induction fuel with
  | zero => intro pos s; rfl
  | succ n ih => intro pos s; rw [genLoop_succ]; simp [ih]

lemma genLoop_snd_fbyte (w : Bool) (sp base : Nat) :
    ∀ (fuel pos : Nat) (s : HexaFile),
      ((genLoop w sp base pos fuel s).2.2).fbyte = s.fbyte := by
  intro fuel
  induction fuel with
  | zero => intro pos s; rfl
  | succ n ih => intro pos s; rw [genLoop_succ]; simp [ih]

lemma genLoop_snd_showOffset (w : Bool) (sp base : Nat) :
    ∀ (fuel pos : Nat) (s : HexaFile),
      ((genLoop w sp base pos fuel s).2.2).showOffset = s.showOffset := by
  intro fuel
  induction fuel with
  | zero => intro pos s; rfl
  | succ n ih => intro pos s; rw [genLoop_succ]; simp [ih]

lemma genLoop_snd_showHexa (w : Bool) (sp base : Nat) :
    ∀ (fuel pos : Nat) (s : HexaFile),
      ((genLoop w sp base pos fuel s).2.2).showHexa = s.showHexa := by
  intro fuel
  induction fuel with
  | zero => intro pos s; rfl
  | succ n ih => intro pos s; rw [genLoop_succ]; simp [ih]

lemma genLoop_snd_blockSize (w : Bool) (sp base : Nat) :
    ∀ (fuel pos : Nat) (s : HexaFile),
      ((genLoop w sp base pos fuel s).2.2).blockSize = s.blockSize := by
  intro fuel
  induction fuel with
  | zero => intro pos s; rfl
  | succ n ih => intro pos s; rw [genLoop_succ]; simp [ih]

lemma printLineStep_fst (w : Bool) (s : HexaFile) :
    (printLineStep w s).1 =
      (if s.showOffset then s.getOffset ++ [' ', ' ', ' '] else []) ++
        (generateLine w s).1 := rfl

lemma printLineStep_snd_currentOffset (w : Bool) (s : HexaFile) :
    ((printLineStep w s).2).currentOffset = s.currentOffset + LINE_WIDTH := by
  show ((generateLine w s).2).currentOffset + LINE_WIDTH = s.currentOffset + LINE_WIDTH
  unfold generateLine
  simp [genLoop_snd_currentOffset]

lemma printLineStep_snd_currentLine (w : Bool) (s : HexaFile) :
    ((printLineStep w s).2).currentLine = s.currentLine + 1 := by
  show ((generateLine w s).2).currentLine + 1 = s.currentLine + 1
  unfold generateLine
  simp [genLoop_snd_currentLine]

lemma printLineStep_snd_maxLine (w : Bool) (s : HexaFile) :
    ((printLineStep w s).2).maxLine = s.maxLine := by
  show ((generateLine w s).2).maxLine = s.maxLine
  unfold generateLine
  simp [genLoop_snd_maxLine]

lemma printLineStep_snd_fsize (w : Bool) (s : HexaFile) :
    ((printLineStep w s).2).fsize = s.fsize := by
  show ((generateLine w s).2).fsize = s.fsize
  unfold generateLine
  simp [genLoop_snd_fsize]

lemma printLineStep_snd_showOffset (w : Bool) (s : HexaFile) :
    ((printLineStep w s).2).showOffset = s.showOffset := by
  show ((generateLine w s).2).showOffset = s.showOffset
  unfold generateLine
  simp [genLoop_snd_showOffset]

end HexaFile

namespace HexaFile

/-- C1: for every `byteAt` call with `offset < fileSize` made from a
reachable session state (every call the renderer makes satisfies
`windowStart ≤ offset`; see the C10 theorem for the access pattern): if
`offset` lies outside the current window `[windowStart, windowStart +
capacity)` the window is refilled so that `windowStart` becomes `offset`
(the refill loads the file bytes starting at `offset`), otherwise the
window is untouched; the byte returned is taken from buffer index
`offset - windowStart`; and the served offset satisfies
`windowStart ≤ offset < windowStart + capacity` and `offset < fileSize`. -/
theorem C1_byteAt_window_invariant (s : HexaFile) (offset : Nat)
    (h1 : offset < s.fsize) (h2 : s.bufferStart ≤ offset) :
    (s.bufferStart + BUFFER_LENGTH ≤ offset →
        ((readByteFromFile s offset).2.bufferStart = offset ∧
          ∀ i, i < BUFFER_LENGTH → offset + i < s.fsize →
            (readByteFromFile s offset).2.buffer i = s.fbyte (offset + i))) ∧
    (offset < s.bufferStart + BUFFER_LENGTH → (readByteFromFile s offset).2 = s) ∧
    (readByteFromFile s offset).1 =
      ((readByteFromFile s offset).2.buffer
        (offset - (readByteFromFile s offset).2.bufferStart) : Int) ∧
    (readByteFromFile s offset).2.bufferStart ≤ offset ∧
    offset < (readByteFromFile s offset).2.bufferStart + BUFFER_LENGTH ∧
    offset < s.fsize := by
  have hbuf : 0 < BUFFER_LENGTH := by norm_num [BUFFER_LENGTH]
  have hr : readByteFromFile s offset =
      (((checkBuffer s offset).buffer
          (offset - (checkBuffer s offset).bufferStart) : Int),
        checkBuffer s offset) := by
    unfold readByteFromFile
    rw [if_pos h1]
  have hval : (readByteFromFile s offset).1 =
      ((readByteFromFile s offset).2.buffer
        (offset - (readByteFromFile s offset).2.bufferStart) : Int) := by
    rw [hr]
  by_cases hc : BUFFER_LENGTH + s.bufferStart ≤ offset
  · have hcb : checkBuffer s offset =
        readChunk { s with bufferStart := offset } offset := by
      unfold checkBuffer; rw [if_pos hc]
    have hbs : (readByteFromFile s offset).2.bufferStart = offset := by
      simp [hr, hcb]
    refine ⟨fun _ => ⟨hbs, fun i hi hif => ?_⟩,
      fun hlt => absurd hlt (by omega), hval, ?_, ?_, h1⟩
    · have : (readByteFromFile s offset).2.buffer i =
          (if i < BUFFER_LENGTH ∧ offset + i < s.fsize then s.fbyte (offset + i)
            else s.buffer i) := by
        simp [hr, hcb, readChunk]
      rw [this, if_pos ⟨hi, hif⟩]
    · simp [hbs]
    · simp [hbs]; omega
  · have hcb : checkBuffer s offset = s := by
      unfold checkBuffer; rw [if_neg hc]
    have hb2 : (readByteFromFile s offset).2 = s := by simp [hr, hcb]
    refine ⟨fun hge => absurd hge (by omega), fun _ => hb2, hval, ?_, ?_, h1⟩
    · simp [hb2, h2]
    · simp [hb2]; omega

/-- Concrete session used by the C1 witness: a 10-byte file whose window
starts at 0 and already holds the file content. -/
def sessC1 : HexaFile :=
  { fsize := 10, fbyte := fun i => i, currentOffset := 0, bufferStart := 0,
    buffer := fun i => if i < 10 then i else 0, blockSize := 8,
    showOffset := true, showHexa := true, currentLine := 0, maxLine := 0,
    fd := some 3 }

/-- C1 witness: the invariant evaluated at the in-window offset 3 of
`sessC1`. -/
theorem C1_witness :
    (3 : Nat) < sessC1.fsize ∧ sessC1.bufferStart ≤ 3 ∧
    (readByteFromFile sessC1 3).1 =
      ((readByteFromFile sessC1 3).2.buffer
        (3 - (readByteFromFile sessC1 3).2.bufferStart) : Int) ∧
    (readByteFromFile sessC1 3).2.bufferStart ≤ 3 ∧
    3 < (readByteFromFile sessC1 3).2.bufferStart + BUFFER_LENGTH :=
  ⟨by decide, by decide,
   (C1_byteAt_window_invariant sessC1 3 (by decide) (by decide)).2.2.1,
   (C1_byteAt_window_invariant sessC1 3 (by decide) (by decide)).2.2.2.1,
   (C1_byteAt_window_invariant sessC1 3 (by decide) (by decide)).2.2.2.2.1⟩

/-- C4: any requested offset at or beyond the file size is served as the
end-of-file sentinel `-1` without error (and without touching the state),
the hex cell renders as `".."`, and the character-gloss cell renders as
`"."`, so trailing positions of the final line are padded. -/
theorem C4_eof_sentinel_padding (s : HexaFile) (offset : Nat) (w : Bool)
    (h : s.fsize ≤ offset) :
    readByteFromFile s offset = (-1, s) ∧
    (getByteHexa s offset).1 = ['.', '.'] ∧
    (getAscii w s offset).1 = ['.'] := by
  have hr : readByteFromFile s offset = (-1, s) := by
    unfold readByteFromFile; rw [if_neg (by omega)]
  refine ⟨hr, ?_, ?_⟩
  · unfold getByteHexa; rw [hr]; norm_num
  · unfold getAscii; rw [hr]; norm_num

/-- Concrete session used by the C4 witness: a 10-byte file; the final
line of a 10-byte dump requests offsets 10..23, all past end of file. -/
def sessC4 : HexaFile :=
  { fsize := 10, fbyte := fun i => i, currentOffset := 0, bufferStart := 0,
    buffer := fun i => if i < 10 then i else 0, blockSize := 8,
    showOffset := true, showHexa := true, currentLine := 0, maxLine := 0,
    fd := some 3 }

/-- C4 witness: offset 17 of the 10-byte session renders as `".."`/`"."`. -/
theorem C4_witness :
    sessC4.fsize ≤ 17 ∧
    readByteFromFile sessC4 17 = (-1, sessC4) ∧
    (getByteHexa sessC4 17).1 = ['.', '.'] ∧
    (getAscii true sessC4 17).1 = ['.'] :=
  ⟨by decide, C4_eof_sentinel_padding sessC4 17 true (by decide)⟩

lemma getAscii_eval (w : Bool) (s : HexaFile) (offset b : Nat)
    (h1 : offset < s.fsize) (h3 : offset < s.bufferStart + BUFFER_LENGTH)
    (h4 : s.buffer (offset - s.bufferStart) = b) :
    (getAscii w s offset).1 =
      (if ((w = false ∧ 160 < b) ∨ (32 ≤ b ∧ b < 127)) ∧ b ≠ 173 then
        [Char.ofNat b] else ['.']) := by
  have hcb : checkBuffer s offset = s := by
    unfold checkBuffer; rw [if_neg (by omega)]
  have hr : readByteFromFile s offset = ((b : Int), s) := by
    unfold readByteFromFile
    rw [if_pos h1]
    simp [hcb, h4]
  have hiff : (((w = false) ∧ 160 < (b : Int)) ∨
        (32 ≤ (b : Int) ∧ (b : Int) < 127)) ∧ (b : Int) ≠ 173 ↔
      ((w = false ∧ 160 < b) ∨ (32 ≤ b ∧ b < 127)) ∧ b ≠ 173 := by
    norm_cast
  have hv : [Char.ofNat ((b : Int)).toNat] = [Char.ofNat b] := by simp
  unfold getAscii
  rw [hr]
  rw [apply_ite (fun p : List Char × HexaFile => p.1)]
  simp only []
  rw [if_congr hiff hv rfl]

end HexaFile

namespace HexaFile

/-- C2: character-gloss classification.  The end-of-file sentinel renders
as `"."`; for an in-window byte `b`, on the restrictive platform
(Windows, `w = true`) the byte renders as its character exactly when
`32 ≤ b < 127` and as `"."` otherwise; on other platforms it renders as
its character exactly when (`32 ≤ b < 127` or `b > 160`) and `b ≠ 0xAD`,
and as `"."` otherwise (so `0xAD` renders as `"."` on every platform). -/
theorem C2_renderByteChar (s : HexaFile) (offset b : Nat) (hb : b < 256)
    (h1 : offset < s.fsize) (h3 : offset < s.bufferStart + BUFFER_LENGTH)
    (h4 : s.buffer (offset - s.bufferStart) = b) :
    (∀ (w : Bool) (t : HexaFile) (o : Nat), t.fsize ≤ o →
      (getAscii w t o).1 = ['.']) ∧
    (getAscii true s offset).1 =
      (if 32 ≤ b ∧ b < 127 then [Char.ofNat b] else ['.']) ∧
    (getAscii false s offset).1 =
      (if (32 ≤ b ∧ b < 127 ∨ 160 < b) ∧ b ≠ 0xAD then [Char.ofNat b]
        else ['.']) := by
  refine ⟨?_, ?_, ?_⟩
  · intro w t o ho
    have hr : readByteFromFile t o = (-1, t) := by
      unfold readByteFromFile; rw [if_neg (by omega)]
    unfold getAscii; rw [hr]; norm_num
  · rw [getAscii_eval true s offset b h1 h3 h4]
    apply if_congr _ rfl rfl
    constructor
    · rintro ⟨h5 | h5, _⟩
      · exact absurd h5.1 (by simp)
      · exact h5
    · intro h5
      exact ⟨Or.inr h5, by omega⟩
  · rw [getAscii_eval false s offset b h1 h3 h4]
    apply if_congr _ rfl rfl
    constructor
    · rintro ⟨h5 | h5, h6⟩
      · exact ⟨Or.inr h5.2, h6⟩
      · exact ⟨Or.inl h5, h6⟩
    · rintro ⟨h5 | h5, h6⟩
      · exact ⟨Or.inr h5, h6⟩
      · exact ⟨Or.inl ⟨rfl, h5⟩, h6⟩

/-- Concrete session used by the C2 witness: every buffer byte is 65
(letter A). -/
def sessC2 : HexaFile :=
  { fsize := 10, fbyte := fun _ => 65, currentOffset := 0, bufferStart := 0,
    buffer := fun _ => 65, blockSize := 8, showOffset := true,
    showHexa := true, currentLine := 0, maxLine := 0, fd := some 3 }

/-- C2 witness: byte 65 at offset 0 of `sessC2` on both platforms. -/
theorem C2_witness :
    (65 : Nat) < 256 ∧ (0 : Nat) < sessC2.fsize ∧
    (getAscii true sessC2 0).1 =
      (if 32 ≤ (65 : Nat) ∧ (65 : Nat) < 127 then [Char.ofNat 65] else ['.']) ∧
    (getAscii false sessC2 0).1 =
      (if (32 ≤ (65 : Nat) ∧ (65 : Nat) < 127 ∨ 160 < (65 : Nat)) ∧
          (65 : Nat) ≠ 0xAD then [Char.ofNat 65] else ['.']) :=
  ⟨by decide, by decide,
   (C2_renderByteChar sessC2 0 65 (by decide) (by decide) (by decide)
     (by decide)).2.1,
   (C2_renderByteChar sessC2 0 65 (by decide) (by decide) (by decide)
     (by decide)).2.2⟩

lemma readSeq_nil (s : HexaFile) : readSeq s [] = ([], s) := rfl

lemma readSeq_cons (s : HexaFile) (o : Nat) (os : List Nat) :
    readSeq s (o :: os) =
      (if o < s.fsize then
          (o - ((readByteFromFile s o).2).bufferStart) ::
            (readSeq ((readByteFromFile s o).2) os).1
        else (readSeq ((readByteFromFile s o).2) os).1,
       (readSeq ((readByteFromFile s o).2) os).2) := rfl

lemma chain_le_weaken {a b : Nat} {l : List Nat} (hab : a ≤ b)
    (h : List.Chain' (fun x y => x ≤ y) (b :: l)) :
    List.Chain' (fun x y => x ≤ y) (a :: l) := by
  cases l with
  | nil => simp
  | cons c l =>
    rw [List.chain'_cons] at h ⊢
    exact ⟨le_trans hab h.1, h.2⟩

/-- C10: along any nondecreasing offset sequence whose first offset is at
or after the initial window start (which is exactly the access pattern the
line renderer produces: `printLine` requests consecutive offsets from the
start offset onward, each twice), every buffer lookup lands at an index in
`[0, 512*1024)` — inside the allocated buffer — and the window start never
decreases across the session. -/
theorem C10_buffer_indices_in_bounds (s : HexaFile) (offs : List Nat)
    (hchain : List.Chain' (fun a b => a ≤ b) (s.bufferStart :: offs)) :
    (∀ i ∈ (readSeq s offs).1, i < 512 * 1024) ∧
    s.bufferStart ≤ ((readSeq s offs).2).bufferStart := by
  induction offs generalizing s with
  | nil => exact ⟨by simp [readSeq_nil], le_refl _⟩
  | cons o os ih =>
    have hle : s.bufferStart ≤ o := (List.chain'_cons.mp hchain).1
    have hcha : List.Chain' (fun a b => a ≤ b) (o :: os) :=
      (List.chain'_cons.mp hchain).2
    have hBL : BUFFER_LENGTH = 512 * 1024 := rfl
    have hbs : s.bufferStart ≤ ((readByteFromFile s o).2).bufferStart ∧
        ((readByteFromFile s o).2).bufferStart ≤ o ∧
        (o < s.fsize →
          o - ((readByteFromFile s o).2).bufferStart < BUFFER_LENGTH) := by
      rw [readByteFromFile_snd]
      split
      next ho =>
        rw [checkBuffer_bufferStart]
        split
        next hre => exact ⟨by omega, le_refl o, fun _ => by omega⟩
        next hnre => exact ⟨le_refl _, hle, fun _ => by omega⟩
      next ho => exact ⟨le_refl _, hle, fun h => absurd h (by omega)⟩
    have hch1 : List.Chain' (fun a b => a ≤ b)
        (((readByteFromFile s o).2).bufferStart :: os) :=
      chain_le_weaken hbs.2.1 hcha
    have ihs := ih ((readByteFromFile s o).2) hch1
    constructor
    · intro i hi
      simp only [readSeq_cons] at hi
      by_cases ho : o < s.fsize
      · rw [if_pos ho] at hi
        rcases List.mem_cons.mp hi with h | h
        · subst h
          have := hbs.2.2 ho
          omega
        · exact ihs.1 i h
      · rw [if_neg ho] at hi
        exact ihs.1 i hi
    · have h2eq : (readSeq s (o :: os)).2 =
          (readSeq ((readByteFromFile s o).2) os).2 := by
        rw [readSeq_cons]
      rw [h2eq]
      exact le_trans hbs.1 ihs.2

/-- Concrete session used by the C10 witness. -/
def sessC10 : HexaFile :=
  { fsize := 3, fbyte := fun i => i, currentOffset := 0, bufferStart := 0,
    buffer := fun i => if i < 3 then i else 0, blockSize := 8,
    showOffset := true, showHexa := true, currentLine := 0, maxLine := 0,
    fd := some 3 }

/-- C10 witness: the nondecreasing access sequence `[0, 1, 2]` from the
initial window start of `sessC10`. -/
theorem C10_witness :
    List.Chain' (fun a b => a ≤ b) (sessC10.bufferStart :: [0, 1, 2]) ∧
    sessC10.bufferStart ≤ ((readSeq sessC10 [0, 1, 2]).2).bufferStart :=
  ⟨by show List.Chain' (fun a b => a ≤ b) [0, 0, 1, 2]; simp,
   (C10_buffer_indices_in_bounds sessC10 [0, 1, 2]
     (by show List.Chain' (fun a b => a ≤ b) [0, 0, 1, 2]; simp)).2⟩

end HexaFile

namespace HexaFile

lemma openFile_of_pos (s : HexaFile) (fd : Nat) (h : 0 < s.fsize) :
    openFile s fd =
      .ok (readChunk { (checkStartOffset s).1 with fd := some fd }
            ((checkStartOffset s).1).currentOffset, (checkStartOffset s).2) := by
  unfold openFile statFile
  rw [if_neg (by omega)]

/-- C7: a requested start offset at or past the file size does not abort
session setup: `openFile` succeeds with exactly one warning, the start
offset and window start are reset to 0, and the opened state is exactly
the state an `openFile` with start offset 0 produces (that run warns zero
times) — the engine being deterministic, the subsequent dump output is
therefore identical to a run with start offset 0. -/
theorem C7_start_offset_reset (fsize : Nat) (fbyte : Nat → Nat)
    (blockSize startOffset fd : Nat) (hexa offs : Bool)
    (h0 : 0 < fsize) (h1 : fsize ≤ startOffset) :
    openFile (mk' fsize fbyte blockSize startOffset hexa offs) fd =
      .ok (readChunk { mk' fsize fbyte blockSize 0 hexa offs with
            fd := some fd } 0, 1) ∧
    openFile (mk' fsize fbyte blockSize 0 hexa offs) fd =
      .ok (readChunk { mk' fsize fbyte blockSize 0 hexa offs with
            fd := some fd } 0, 0) ∧
    (readChunk { mk' fsize fbyte blockSize 0 hexa offs with
        fd := some fd } 0).currentOffset = 0 ∧
    (readChunk { mk' fsize fbyte blockSize 0 hexa offs with
        fd := some fd } 0).bufferStart = 0 := by
  refine ⟨?_, ?_, rfl, rfl⟩
  · rw [openFile_of_pos _ _ h0]
    have hcs : checkStartOffset (mk' fsize fbyte blockSize startOffset hexa offs) =
        ({ mk' fsize fbyte blockSize startOffset hexa offs with
            currentOffset := 0, bufferStart := 0 }, 1) := by
      unfold checkStartOffset
      rw [if_pos (show (mk' fsize fbyte blockSize startOffset hexa offs).fsize ≤
        (mk' fsize fbyte blockSize startOffset hexa offs).currentOffset from h1)]
    rw [hcs]
    rfl
  · rw [openFile_of_pos _ _ h0]
    have hcs : checkStartOffset (mk' fsize fbyte blockSize 0 hexa offs) =
        (mk' fsize fbyte blockSize 0 hexa offs, 0) := by
      unfold checkStartOffset
      rw [if_neg (show ¬ (mk' fsize fbyte blockSize 0 hexa offs).fsize ≤
        (mk' fsize fbyte blockSize 0 hexa offs).currentOffset from by
          show ¬ fsize ≤ 0; omega)]
    rw [hcs]
    rfl

/-- C7 witness: a 5-byte file requested to start at offset 100. -/
theorem C7_witness :
    (0 : Nat) < 5 ∧ (5 : Nat) ≤ 100 ∧
    (openFile (mk' 5 (fun _ => 7) 8 100 true true) 4 =
        .ok (readChunk { mk' 5 (fun _ => 7) 8 0 true true with
              fd := some 4 } 0, 1) ∧
      openFile (mk' 5 (fun _ => 7) 8 0 true true) 4 =
        .ok (readChunk { mk' 5 (fun _ => 7) 8 0 true true with
              fd := some 4 } 0, 0) ∧
      (readChunk { mk' 5 (fun _ => 7) 8 0 true true with
          fd := some 4 } 0).currentOffset = 0 ∧
      (readChunk { mk' 5 (fun _ => 7) 8 0 true true with
          fd := some 4 } 0).bufferStart = 0) :=
  ⟨by decide, by decide,
   C7_start_offset_reset 5 (fun _ => 7) 8 100 4 true true (by decide) (by decide)⟩

/-- Concrete session used for C8: the handle field holds descriptor 3. -/
def sessC8 : HexaFile :=
  { fsize := 1, fbyte := fun _ => 0, currentOffset := 0, bufferStart := 0,
    buffer := fun _ => 0, blockSize := 8, showOffset := true, showHexa := true,
    currentLine := 0, maxLine := 0, fd := some 3 }

/-- C8 counterexample: the first `cleanup` closes descriptor 3 but leaves
`fd = some 3` in the object, so a second `cleanup` calls `closeSync` on
the already-closed descriptor and raises `EBADF` — `cleanup` is not
idempotent. -/
theorem C8_counterexample :
    cleanup sessC8 { openFds := [3] } = .ok { openFds := [] } ∧
    cleanup sessC8 { openFds := [] } =
      .error "EBADF: bad file descriptor".data := by
  constructor
  · rfl
  · rfl

/-- C8 (amended): `cleanup` releases the handle when one is open and is
safe to call when `open` never succeeded (no handle stored: no-op); but it
does not clear the stored handle, so it is not idempotent — once the
descriptor is no longer open, a second call raises `EBADF` from the
underlying close. -/
theorem C8_cleanup_amended (s : HexaFile) (sys : Sys) :
    (s.fd = none → cleanup s sys = .ok sys) ∧
    (∀ fd : Nat, s.fd = some fd → 0 < fd → fd ∈ sys.openFds →
      cleanup s sys = .ok { openFds := sys.openFds.erase fd } ∧
      (fd ∉ sys.openFds.erase fd →
        cleanup s { openFds := sys.openFds.erase fd } =
          .error "EBADF: bad file descriptor".data)) := by
  constructor
  · intro h
    simp [cleanup, h]
  · intro fd hfd hpos hmem
    have hne : fd ≠ 0 := by omega
    constructor
    · simp [cleanup, hfd, hne, closeSync, hmem]
    · intro hnm
      simp [cleanup, hfd, hne, closeSync, hnm]

/-- C8 witness: the amended statement evaluated on descriptor 3. -/
theorem C8_witness :
    cleanup sessC8 { openFds := [3] } = .ok { openFds := List.erase [3] 3 } ∧
    cleanup sessC8 { openFds := List.erase [3] 3 } =
      .error "EBADF: bad file descriptor".data :=
  ⟨((C8_cleanup_amended sessC8 { openFds := [3] }).2 3 rfl (by decide)
      (by decide)).1,
   ((C8_cleanup_amended sessC8 { openFds := [3] }).2 3 rfl (by decide)
      (by decide)).2 (by decide)⟩

end HexaFile

/-- C9: block-size validation is broken — `String(blockSize).match(/8|16|32|64/)`
is unanchored, so the invalid block size `"128"` (not one of 8, 16, 32, 64)
passes validation because it merely *contains* the digit 8, contradicting
the code's own usage text ("size of block, can be 8, 16, 32, 64") and its
error message; by contrast `"9"`, a NaN start offset, and a negative start
offset are rejected as the claim states. -/
theorem C9_validateParams_accepts_128 :
    validateParams ['1', '2', '8'] (some 0) = true ∧
    ¬(['1', '2', '8'] = ['8'] ∨ ['1', '2', '8'] = ['1', '6'] ∨
      ['1', '2', '8'] = ['3', '2'] ∨ ['1', '2', '8'] = ['6', '4']) ∧
    validateParams ['9'] (some 0) = false ∧
    validateParams ['8'] none = false ∧
    validateParams ['8'] (some (-1)) = false := by
  decide

namespace HexaFile

lemma printLineRec_zero (w : Bool) (s : HexaFile) :
    printLineRec w 0 s = ([(printLineStep w s).1], (printLineStep w s).2) := rfl

lemma printLineRec_succ (w : Bool) (fuel : Nat) (s : HexaFile) :
    printLineRec w (fuel + 1) s =
      if ((printLineStep w s).2).currentLine < ((printLineStep w s).2).maxLine then
        ((printLineStep w s).1 :: (printLineRec w fuel ((printLineStep w s).2)).1,
          (printLineRec w fuel ((printLineStep w s).2)).2)
      else ([(printLineStep w s).1], (printLineStep w s).2) := rfl

lemma step_prefix (w : Bool) (s : HexaFile) (hso : s.showOffset = true) :
    ((printLineStep w s).1).take
        ((convertOffsetTotHexa s.currentOffset).length + 3) =
      convertOffsetTotHexa s.currentOffset ++ [' ', ' ', ' '] := by
  rw [printLineStep_fst, if_pos hso]
  unfold getOffset
  exact List.take_left' (by simp)

lemma printLineRec_emits (w : Bool) :
    ∀ (k fuel : Nat) (s : HexaFile),
      s.maxLine = s.currentLine + (k + 1) → k ≤ fuel →
      (printLineRec w fuel s).1.length = k + 1 ∧
      (s.showOffset = true →
        ∀ i (hi : i < (printLineRec w fuel s).1.length),
          ((printLineRec w fuel s).1.get ⟨i, hi⟩).take
              ((convertOffsetTotHexa (s.currentOffset + LINE_WIDTH * i)).length + 3) =
            convertOffsetTotHexa (s.currentOffset + LINE_WIDTH * i) ++
              [' ', ' ', ' ']) := by
  intro k
  induction k with
  | zero =>
    intro fuel s hmax hfuel
    have hstop : ¬ ((printLineStep w s).2).currentLine <
        ((printLineStep w s).2).maxLine := by
      rw [printLineStep_snd_currentLine, printLineStep_snd_maxLine]
      omega
    have hres : printLineRec w fuel s =
        ([(printLineStep w s).1], (printLineStep w s).2) := by
      cases fuel with
      | zero => exact printLineRec_zero w s
      | succ f => rw [printLineRec_succ, if_neg hstop]
    rw [hres]
    refine ⟨rfl, fun hso i hi => ?_⟩
    have hi0 : i = 0 := by
      simp only [List.length_singleton] at hi
      omega
    subst hi0
    show ((printLineStep w s).1).take
        ((convertOffsetTotHexa (s.currentOffset + LINE_WIDTH * 0)).length + 3) =
      convertOffsetTotHexa (s.currentOffset + LINE_WIDTH * 0) ++ [' ', ' ', ' ']
    rw [Nat.mul_zero, Nat.add_zero]
    exact step_prefix w s hso
  | succ k ih =>
    intro fuel s hmax hfuel
    obtain ⟨f, rfl⟩ : ∃ f, fuel = f + 1 := ⟨fuel - 1, by omega⟩
    have hcont : ((printLineStep w s).2).currentLine <
        ((printLineStep w s).2).maxLine := by
      rw [printLineStep_snd_currentLine, printLineStep_snd_maxLine]
      omega
    rw [printLineRec_succ, if_pos hcont]
    have hmax2 : ((printLineStep w s).2).maxLine =
        ((printLineStep w s).2).currentLine + (k + 1) := by
      rw [printLineStep_snd_currentLine, printLineStep_snd_maxLine]
      omega
    have ihs := ih f ((printLineStep w s).2) hmax2 (by omega)
    constructor
    · simp only [List.length_cons]
      rw [ihs.1]
    · intro hso i hi
      cases i with
      | zero =>
        have h0 := step_prefix w s hso
        show ((printLineStep w s).1).take
            ((convertOffsetTotHexa (s.currentOffset + LINE_WIDTH * 0)).length + 3) =
          convertOffsetTotHexa (s.currentOffset + LINE_WIDTH * 0) ++ [' ', ' ', ' ']
        rw [Nat.mul_zero, Nat.add_zero]
        exact h0
      | succ j =>
        have hj : j < (printLineRec w f ((printLineStep w s).2)).1.length := by
          simp only [List.length_cons] at hi
          omega
        have hso2 : ((printLineStep w s).2).showOffset = true := by
          rw [printLineStep_snd_showOffset]
          exact hso
        have happ := ihs.2 hso2 j hj
        have hoff : ((printLineStep w s).2).currentOffset + LINE_WIDTH * j =
            s.currentOffset + LINE_WIDTH * (j + 1) := by
          rw [printLineStep_snd_currentOffset]
          ring
        rw [hoff] at happ
        exact happ

lemma print_eq (w : Bool) (s : HexaFile) :
    print w s = printLineRec w ((s.fsize + LINE_WIDTH - 1) / LINE_WIDTH)
      { s with maxLine := (s.fsize + LINE_WIDTH - 1) / LINE_WIDTH,
               currentLine := 0 } := rfl

/-- C3: for a file of size `S > 0` (line width 24), the dump emits exactly
`ceil(S / 24)` lines (`(S + 24 - 1) / 24` in natural division), and when
the offset column is shown the `i`-th emitted line begins with the offset
column of `startOffset + 24 * i`, i.e. each line starts at that offset. -/
theorem C3_line_count_and_offsets (w : Bool) (s : HexaFile) (h : 0 < s.fsize) :
    (print w s).1.length = (s.fsize + LINE_WIDTH - 1) / LINE_WIDTH ∧
    (s.showOffset = true →
      ∀ i (hi : i < (print w s).1.length),
        ((print w s).1.get ⟨i, hi⟩).take
            ((convertOffsetTotHexa (s.currentOffset + LINE_WIDTH * i)).length + 3) =
          convertOffsetTotHexa (s.currentOffset + LINE_WIDTH * i) ++
            [' ', ' ', ' ']) := by
  have hLW : LINE_WIDTH = 24 := rfl
  have hm : 0 < (s.fsize + LINE_WIDTH - 1) / LINE_WIDTH := by
    rw [hLW]
    omega
  have hrec := printLineRec_emits w ((s.fsize + LINE_WIDTH - 1) / LINE_WIDTH - 1)
      ((s.fsize + LINE_WIDTH - 1) / LINE_WIDTH)
      { s with maxLine := (s.fsize + LINE_WIDTH - 1) / LINE_WIDTH,
               currentLine := 0 }
      (by show (s.fsize + LINE_WIDTH - 1) / LINE_WIDTH =
            0 + ((s.fsize + LINE_WIDTH - 1) / LINE_WIDTH - 1 + 1)
          omega)
      (by omega)
  constructor
  · rw [print_eq, hrec.1]
    omega
  · intro hso i hi
    exact hrec.2 hso i hi

end HexaFile

namespace HexaFile

/-- Concrete session used by the C3 witness: a 30-byte file needs 2 lines. -/
def sessC3 : HexaFile :=
  { fsize := 30, fbyte := fun _ => 65, currentOffset := 0, bufferStart := 0,
    buffer := fun _ => 65, blockSize := 8, showOffset := true,
    showHexa := true, currentLine := 0, maxLine := 0, fd := some 3 }

/-- C3 witness: the 30-byte session emits `(30 + 24 - 1) / 24 = 2` lines. -/
theorem C3_witness :
    (0 : Nat) < sessC3.fsize ∧
    (print false sessC3).1.length = (sessC3.fsize + LINE_WIDTH - 1) / LINE_WIDTH :=
  ⟨by decide, (C3_line_count_and_offsets false sessC3 (by decide)).1⟩

end HexaFile

lemma toDigitsCore_zero (b n : Nat) (ds : List Char) :
    Nat.toDigitsCore b 0 n ds = ds := rfl

lemma toDigitsCore_succ (b f n : Nat) (ds : List Char) :
    Nat.toDigitsCore b (f + 1) n ds =
      if n / b = 0 then Nat.digitChar (n % b) :: ds
      else Nat.toDigitsCore b f (n / b) (Nat.digitChar (n % b) :: ds) := rfl

lemma toDigitsCore_length_le (fuel : Nat) :
    ∀ (n : Nat) (ds : List Char) (k : Nat), 0 < k → n < 16 ^ k →
      (Nat.toDigitsCore 16 fuel n ds).length ≤ k + ds.length := by
  induction fuel with
  | zero =>
    intro n ds k hk hn
    rw [toDigitsCore_zero]
    omega
  | succ f ih =>
    intro n ds k hk hn
    rw [toDigitsCore_succ]
    split
    next h0 =>
      simp only [List.length_cons]
      omega
    next h0 =>
      have hk2 : 2 ≤ k := by
        by_contra hlt
        have hk1 : k = 1 := by omega
        subst hk1
        rw [pow_one] at hn
        omega
      have h16 : 16 ^ k = 16 ^ (k - 1) * 16 := by
        conv_lhs => rw [show k = (k - 1) + 1 by omega]
        rw [pow_succ]
      have hdiv : n / 16 < 16 ^ (k - 1) := by
        rw [Nat.div_lt_iff_lt_mul (by norm_num)]
        omega
      have hrec := ih (n / 16) (Nat.digitChar (n % 16) :: ds) (k - 1)
        (by omega) hdiv
      simp only [List.length_cons] at hrec
      omega

lemma toDigitsCore_length_gt (fuel : Nat) :
    ∀ (n : Nat) (ds : List Char) (k : Nat), n < 16 ^ fuel → 16 ^ k ≤ n →
      k + ds.length < (Nat.toDigitsCore 16 fuel n ds).length := by
  induction fuel with
  | zero =>
    intro n ds k hfuel hk
    rw [pow_zero] at hfuel
    have hpos : 0 < 16 ^ k := Nat.pos_pow_of_pos k (by norm_num)
    omega
  | succ f ih =>
    intro n ds k hfuel hk
    rw [toDigitsCore_succ]
    split
    next h0 =>
      have hn16 : n < 16 := by omega
      have hk0 : k = 0 := by
        by_contra hne
        have h1k : 1 ≤ k := by omega
        have h16k : 16 ≤ 16 ^ k := by
          calc (16 : Nat) = 16 ^ 1 := (pow_one 16).symm
          _ ≤ 16 ^ k := Nat.pow_le_pow_right (by norm_num) h1k
        omega
      subst hk0
      simp only [List.length_cons]
      omega
    next h0 =>
      have h16f : 16 ^ (f + 1) = 16 ^ f * 16 := pow_succ 16 f
      have hdivfuel : n / 16 < 16 ^ f := by
        rw [Nat.div_lt_iff_lt_mul (by norm_num)]
        omega
      cases k with
      | zero =>
        have hrec := ih (n / 16) (Nat.digitChar (n % 16) :: ds) 0 hdivfuel
          (by rw [pow_zero]; omega)
        simp only [List.length_cons] at hrec
        omega
      | succ j =>
        have hj : 16 ^ j ≤ n / 16 := by
          rw [Nat.le_div_iff_mul_le (by norm_num)]
          have h16j : 16 ^ (j + 1) = 16 ^ j * 16 := pow_succ 16 j
          omega
        have hrec := ih (n / 16) (Nat.digitChar (n % 16) :: ds) j hdivfuel hj
        simp only [List.length_cons] at hrec
        omega

lemma toDigits_length_le (n k : Nat) (hk : 0 < k) (hn : n < 16 ^ k) :
    (Nat.toDigits 16 n).length ≤ k := by
  have h := toDigitsCore_length_le (n + 1) n [] k hk hn
  simpa [Nat.toDigits] using h

lemma toDigits_length_gt (n k : Nat) (hk : 16 ^ k ≤ n) :
    k < (Nat.toDigits 16 n).length := by
  have hfuel : n < 16 ^ (n + 1) := by
    calc n < 2 ^ n := Nat.lt_two_pow n
    _ ≤ 16 ^ n := Nat.pow_le_pow_left (by norm_num) n
    _ ≤ 16 ^ (n + 1) := Nat.pow_le_pow_right (by norm_num) (by omega)
  have h := toDigitsCore_length_gt (n + 1) n [] k hfuel hk
  simpa [Nat.toDigits] using h

lemma takeRight_length (k : Nat) (l : List Char) :
    (takeRight k l).length = min k l.length := by
  unfold takeRight
  rw [List.length_drop]
  omega

lemma takeRight_replicate_append (k : Nat) (d : List Char) (h : d.length ≤ k) :
    takeRight k (List.replicate k '0' ++ d) =
      List.replicate (k - d.length) '0' ++ d := by
  unfold takeRight
  rw [List.length_append, List.length_replicate,
    show k + d.length - k = d.length by omega,
    List.drop_append_of_le_length (by rw [List.length_replicate]; omega),
    List.drop_replicate]

namespace HexaFile

lemma headI_eq_get {α : Type} [Inhabited α] (l : List α) (h : 0 < l.length) :
    l.headI = l.get ⟨0, h⟩ := by
  cases l with
  | nil => simp at h
  | cons a t => rfl

/-- C6 (amended): for every offset `o < 2^64`, the offset column renders
`o` as lowercase hexadecimal zero-padded to exactly 8 hex digits when
`o ≤ 0xFFFFFFFF` and to exactly 16 hex digits when `0xFFFFFFFF < o`; and
for a valid start offset in `[0, fileSize)` with the offset column shown,
the first emitted line begins with the so-formatted start offset.  (For
`o ≥ 2^64` the 16-character output keeps only the low 16 hex digits — see
the counterexample.) -/
theorem C6_offset_column (o : Nat) (w : Bool) (s : HexaFile) :
    (o ≤ MAX_32BIT →
      convertOffsetTotHexa o =
        List.replicate (8 - (Nat.toDigits 16 o).length) '0' ++
          Nat.toDigits 16 o ∧
      (convertOffsetTotHexa o).length = 8) ∧
    (MAX_32BIT < o → o < 16 ^ 16 →
      convertOffsetTotHexa o =
        List.replicate (16 - (Nat.toDigits 16 o).length) '0' ++
          Nat.toDigits 16 o ∧
      (convertOffsetTotHexa o).length = 16) ∧
    (s.showOffset = true → 0 < s.fsize → s.currentOffset < s.fsize →
      ((print w s).1.headI).take
          ((convertOffsetTotHexa s.currentOffset).length + 3) =
        convertOffsetTotHexa s.currentOffset ++ [' ', ' ', ' ']) := by
  refine ⟨?_, ?_, ?_⟩
  · intro h8
    have hlt : o < 16 ^ 8 := by
      have h168 : (16 : Nat) ^ 8 = 4294967296 := by norm_num
      have hM : MAX_32BIT = 4294967295 := rfl
      omega
    have hdlen : (Nat.toDigits 16 o).length ≤ 8 :=
      toDigits_length_le o 8 (by norm_num) hlt
    have heq : convertOffsetTotHexa o =
        takeRight 8 (List.replicate 8 '0' ++ Nat.toDigits 16 o) := by
      unfold convertOffsetTotHexa
      rw [if_pos h8]
    rw [heq, takeRight_replicate_append 8 _ hdlen]
    refine ⟨rfl, ?_⟩
    rw [List.length_append, List.length_replicate]
    omega
  · intro hgt hlt64
    have hdlen : (Nat.toDigits 16 o).length ≤ 16 :=
      toDigits_length_le o 16 (by norm_num) hlt64
    have heq : convertOffsetTotHexa o =
        takeRight 16 (List.replicate 16 '0' ++ Nat.toDigits 16 o) := by
      unfold convertOffsetTotHexa
      rw [if_neg (by omega)]
    rw [heq, takeRight_replicate_append 16 _ hdlen]
    refine ⟨rfl, ?_⟩
    rw [List.length_append, List.length_replicate]
    omega
  · intro hso h0 hval
    have hLW : LINE_WIDTH = 24 := rfl
    have hm : 0 < (s.fsize + LINE_WIDTH - 1) / LINE_WIDTH := by
      rw [hLW]
      omega
    have hrec := printLineRec_emits w
        ((s.fsize + LINE_WIDTH - 1) / LINE_WIDTH - 1)
        ((s.fsize + LINE_WIDTH - 1) / LINE_WIDTH)
        { s with maxLine := (s.fsize + LINE_WIDTH - 1) / LINE_WIDTH,
                 currentLine := 0 }
        (by show (s.fsize + LINE_WIDTH - 1) / LINE_WIDTH =
              0 + ((s.fsize + LINE_WIDTH - 1) / LINE_WIDTH - 1 + 1)
            omega)
        (by omega)
    have hlenpos : 0 < (print w s).1.length := by
      have h1 : (print w s).1.length =
          (s.fsize + LINE_WIDTH - 1) / LINE_WIDTH - 1 + 1 := hrec.1
      omega
    rw [headI_eq_get _ hlenpos]
    have happ := hrec.2 hso 0 hlenpos
    rw [Nat.mul_zero, Nat.add_zero] at happ
    exact happ

/-- C6 counterexample: at `o = 2^64` (an exactly representable JavaScript
number) the hexadecimal representation has 17 digits and `substr(-16)`
drops the leading digit, so the output is not a zero-padded hexadecimal
rendering of `o` — the claim fails as stated for offsets at or above
`2^64`. -/
theorem C6_counterexample :
    convertOffsetTotHexa (2 ^ 64) ≠
      List.replicate (16 - (Nat.toDigits 16 (2 ^ 64)).length) '0' ++
        Nat.toDigits 16 (2 ^ 64) := by
  intro he
  have h17 : 16 < (Nat.toDigits 16 (2 ^ 64)).length := by
    apply toDigits_length_gt
    norm_num
  have heq : convertOffsetTotHexa (2 ^ 64) =
      takeRight 16 (List.replicate 16 '0' ++ Nat.toDigits 16 (2 ^ 64)) := by
    unfold convertOffsetTotHexa
    rw [if_neg (by norm_num [MAX_32BIT])]
  have hlen : (convertOffsetTotHexa (2 ^ 64)).length = 16 := by
    rw [heq, takeRight_length, List.length_append, List.length_replicate]
    omega
  rw [he, List.length_append, List.length_replicate] at hlen
  omega

/-- Concrete session used by the C6 witness. -/
def sessC6 : HexaFile :=
  { fsize := 10, fbyte := fun _ => 65, currentOffset := 0, bufferStart := 0,
    buffer := fun _ => 65, blockSize := 8, showOffset := true,
    showHexa := true, currentLine := 0, maxLine := 0, fd := some 3 }

/-- C6 witness: offset 5 renders as 8 zero-padded lowercase hex digits and
the first line of the `sessC6` dump begins with the offset column of its
start offset. -/
theorem C6_witness :
    (convertOffsetTotHexa 5 =
        List.replicate (8 - (Nat.toDigits 16 5).length) '0' ++
          Nat.toDigits 16 5 ∧
      (convertOffsetTotHexa 5).length = 8) ∧
    ((print false sessC6).1.headI).take
        ((convertOffsetTotHexa sessC6.currentOffset).length + 3) =
      convertOffsetTotHexa sessC6.currentOffset ++ [' ', ' ', ' '] :=
  ⟨(C6_offset_column 5 false sessC6).1 (by norm_num [MAX_32BIT]),
   (C6_offset_column 5 false sessC6).2.2 rfl (by decide) (by decide)⟩

end HexaFile

/-- Number of two-space separators in a character list: occurrences of two
consecutive spaces, scanned left to right (a counted pair is consumed
whole). -/
def countSep : List Char → Nat
  | [] => 0
  | [_] => 0
  | a :: b :: rest =>
    if a = ' ' ∧ b = ' ' then 1 + countSep rest else countSep (b :: rest)

lemma countSep_cons_of_ne (a : Char) (t : List Char) (ha : a ≠ ' ') :
    countSep (a :: t) = countSep t := by
  cases t with
  | nil => rfl
  | cons b t' => simp [countSep, ha]

lemma countSep_append_of_nospace (l rest : List Char)
    (h : ∀ c ∈ l, c ≠ ' ') :
    countSep (l ++ rest) = countSep rest := by
  induction l with
  | nil => rfl
  | cons a t ih =>
    rw [List.cons_append, countSep_cons_of_ne a _ (h a (by simp))]
    exact ih fun c hc => h c (by simp [hc])

lemma countSep_sep (rest : List Char) :
    countSep (' ' :: ' ' :: rest) = 1 + countSep rest := by
  simp [countSep]

lemma digitChar_ne_space (n : Nat) : Nat.digitChar n ≠ ' ' := by
  rcases Nat.lt_or_ge n 16 with h | h
  · interval_cases n <;> decide
  · have he : Nat.digitChar n = '*' := by
      unfold Nat.digitChar
      repeat rw [if_neg (by omega)]
    rw [he]
    decide

lemma toDigitsCore_mem (fuel : Nat) :
    ∀ (n : Nat) (ds : List Char) (c : Char),
      c ∈ Nat.toDigitsCore 16 fuel n ds →
      c ∈ ds ∨ ∃ m, c = Nat.digitChar m := by
  induction fuel with
  | zero =>
    intro n ds c hc
    rw [toDigitsCore_zero] at hc
    exact Or.inl hc
  | succ f ih =>
    intro n ds c hc
    rw [toDigitsCore_succ] at hc
    split at hc
    next =>
      rcases List.mem_cons.mp hc with h | h
      · exact Or.inr ⟨n % 16, h⟩
      · exact Or.inl h
    next =>
      rcases ih (n / 16) (Nat.digitChar (n % 16) :: ds) c hc with h | h
      · rcases List.mem_cons.mp h with h' | h'
        · exact Or.inr ⟨n % 16, h'⟩
        · exact Or.inl h'
      · exact Or.inr h

lemma toDigits_ne_space (n : Nat) (c : Char) (hc : c ∈ Nat.toDigits 16 n) :
    c ≠ ' ' := by
  rcases toDigitsCore_mem (n + 1) n [] c hc with h | ⟨m, rfl⟩
  · simp at h
  · exact digitChar_ne_space m

namespace HexaFile

lemma convertByteTotHexa_length (n : Nat) :
    (convertByteTotHexa n).length = 2 := by
  unfold convertByteTotHexa
  rw [takeRight_length]
  simp only [List.length_cons]
  omega

lemma convertByteTotHexa_nospace (n : Nat) (c : Char)
    (hc : c ∈ convertByteTotHexa n) : c ≠ ' ' := by
  unfold convertByteTotHexa takeRight at hc
  have hmem : c ∈ '0' :: '0' :: Nat.toDigits 16 n := List.mem_of_mem_drop hc
  rcases List.mem_cons.mp hmem with h | h
  · subst h; decide
  · rcases List.mem_cons.mp h with h' | h'
    · subst h'; decide
    · exact toDigits_ne_space n c h'

lemma getByteHexa_fst_length (s : HexaFile) (o : Nat) :
    ((getByteHexa s o).1).length = 2 := by
  unfold getByteHexa
  split
  · exact convertByteTotHexa_length _
  · rfl

lemma getByteHexa_fst_nospace (s : HexaFile) (o : Nat) (c : Char)
    (hc : c ∈ (getByteHexa s o).1) : c ≠ ' ' := by
  unfold getByteHexa at hc
  split at hc
  · exact convertByteTotHexa_nospace _ c hc
  · rcases List.mem_cons.mp hc with h | h
    · subst h; decide
    · simp at h
      subst h; decide

lemma genLoop_countSep (w : Bool) (base : Nat) :
    ∀ (fuel pos : Nat) (s : HexaFile),
      countSep ((genLoop w 4 base pos fuel s).1) =
        (pos + fuel) / 4 - pos / 4 := by
  intro fuel
  induction fuel with
  | zero =>
    intro pos s
    rw [genLoop_zero]
    show countSep [] = (pos + 0) / 4 - pos / 4
    simp [countSep]
  | succ f ih =>
    intro pos s
    rw [genLoop_succ]
    show countSep (((getByteHexa s (base + pos)).1 ++
        (if (pos + 1) % 4 = 0 then [' ', ' '] else [])) ++
          (genLoop w 4 base (pos + 1) f
            ((getAscii w ((getByteHexa s (base + pos)).2) (base + pos)).2)).1) =
      (pos + (f + 1)) / 4 - pos / 4
    rw [List.append_assoc]
    rw [countSep_append_of_nospace _ _
      (fun c hc => getByteHexa_fst_nospace s (base + pos) c hc)]
    by_cases hm : (pos + 1) % 4 = 0
    · rw [if_pos hm, List.cons_append, List.cons_append, List.nil_append,
        countSep_sep, ih (pos + 1) _]
      omega
    · rw [if_neg hm, List.nil_append, ih (pos + 1) _]
      omega

lemma genLoop_trailing_sep (w : Bool) (base : Nat) :
    ∀ (fuel pos : Nat) (s : HexaFile), 0 < fuel → (pos + fuel) % 4 = 0 →
      ∃ t, (genLoop w 4 base pos fuel s).1 = t ++ [' ', ' '] := by
  intro fuel
  induction fuel with
  | zero =>
    intro pos s h
    omega
  | succ f ih =>
    intro pos s hpos hmod
    rw [genLoop_succ]
    cases Nat.eq_zero_or_pos f with
    | inl hf0 =>
      subst hf0
      have hsep : (pos + 1) % 4 = 0 := by omega
      rw [if_pos hsep, genLoop_zero]
      exact ⟨(getByteHexa s (base + pos)).1, by simp⟩
    | inr hfpos =>
      obtain ⟨t, ht⟩ := ih (pos + 1)
        ((getAscii w ((getByteHexa s (base + pos)).2) (base + pos)).2)
        hfpos (by omega)
      rw [ht]
      exact ⟨(getByteHexa s (base + pos)).1 ++
        (if (pos + 1) % 4 = 0 then [' ', ' '] else []) ++ t, by simp⟩

/-- Concrete session used for C5: `blockSize = 32`, start offset past end
of file so every cell renders as dots. -/
def sessC5 : HexaFile :=
  { fsize := 1, fbyte := fun _ => 0, currentOffset := 24, bufferStart := 0,
    buffer := fun _ => 0, blockSize := 32, showOffset := true,
    showHexa := true, currentLine := 0, maxLine := 0, fd := some 3 }

/-- C5 counterexample: with `blockSize = 32` a rendered line's hex portion
contains 6 two-space separators (one after each 4-byte group *including*
the last, since `pos % spacing` also fires at `pos = 24`), not 5 as the
claim states. -/
theorem C5_counterexample :
    countSep ((genLoop false (sessC5.blockSize / 8) sessC5.currentOffset 0
      LINE_WIDTH sessC5).1) ≠ 5 := by
  decide

/-- C5 (amended): with `blockSize = 32` (4-byte groups) and `lineWidth =
24`, every rendered line's hex portion contains exactly 6 two-space
separators, one after each of bytes 4, 8, 12, 16, 20 *and* 24 — the loop
also appends a separator after the final byte, so the hex portion ends
with a two-space separator. -/
theorem C5_separators (w : Bool) (s : HexaFile) (hbs : s.blockSize = 32) :
    countSep ((genLoop w (s.blockSize / 8) s.currentOffset 0
        LINE_WIDTH s).1) = 6 ∧
    ∃ t, (genLoop w (s.blockSize / 8) s.currentOffset 0 LINE_WIDTH s).1 =
      t ++ [' ', ' '] := by
  rw [hbs]
  constructor
  · have h := genLoop_countSep w s.currentOffset 24 0 s
    norm_num at h
    exact h
  · exact genLoop_trailing_sep w s.currentOffset 24 0 s (by norm_num)
      (by norm_num)

/-- C5 witness: the amended separator count evaluated on `sessC5`. -/
theorem C5_witness :
    sessC5.blockSize = 32 ∧
    countSep ((genLoop false (sessC5.blockSize / 8) sessC5.currentOffset 0
      LINE_WIDTH sessC5).1) = 6 :=
  ⟨rfl, (C5_separators false sessC5 rfl).1⟩

end HexaFile
